import Mathlib

/-!
Verification of the PEK (Premiere peak-file) analyzer.

The definitions below are a shallow embedding of `premiere_pek_analyzer.py`:
Python byte strings become `List Byte` (`Byte := Fin 256`), Python float
values are modelled by exact rationals (`ℚ`), the mutable `PEKAnalyzer`
object becomes an explicit state record threaded through the methods, and
file-system access is an explicit function parameter.  Python string
formatting (f-strings with `:.Nf`, `str(timedelta)`) is modelled by
executable decimal renderers.  Rational values are built with `mkRat` and
the helpers `qadd` / `qdivNat` (proved equal to `+` and `/` below) so that
every definition evaluates inside the kernel.
-/

set_option maxRecDepth 8000

namespace PEK

/-- A byte of an input buffer (an element of a Python `bytes` value). -/
abbrev Byte := Fin 256

/-! ### Exact rational arithmetic helpers -/

/-- Addition of rationals via `mkRat` (equal to `+`, proved below). -/
def qadd (a b : ℚ) : ℚ := mkRat (a.num * b.den + b.num * a.den) (a.den * b.den)

/-- Division of a rational by a natural number via `mkRat` (equal to `/`,
proved below). -/
def qdivNat (a : ℚ) (n : Nat) : ℚ := mkRat a.num (a.den * n)

/-- Python `abs` on an exact rational. -/
def pyAbs (q : ℚ) : ℚ := if q < 0 then -q else q

/-! ### Decimal rendering helpers (model of Python string formatting) -/

/-- The ASCII digit character for a digit value `d < 10`. -/
def digitChar (d : Nat) : Char := Char.ofNat (48 + d)

/-- Decimal digit characters of `n`, most significant first; `fuel`-bounded
structural recursion so that the kernel can evaluate it. -/
def natChars : Nat → Nat → List Char
  | 0, _ => []
  | fuel + 1, n =>
    if n < 10 then [digitChar n] else natChars fuel (n / 10) ++ [digitChar (n % 10)]

/-- Decimal digit characters of `n` (`n + 1` is always enough fuel). -/
def natStrChars (n : Nat) : List Char := natChars (n + 1) n

/-- Decimal rendering of a natural number, as Python `str` renders an `int`. -/
def natToStr (n : Nat) : String := String.mk (natStrChars n)

/-- Left-pad a character list with zeros to width `w`. -/
def padLeftZeros (w : Nat) (cs : List Char) : List Char :=
  List.replicate (w - cs.length) '0' ++ cs

/-- Round-half-to-even of the nonnegative fraction `num / den` (the rounding
Python uses when formatting to a fixed number of decimals). -/
def rhe (num den : Nat) : Nat :=
  let f := num / den
  let r2 := 2 * (num % den)
  if r2 < den then f else if den < r2 then f + 1 else if f % 2 = 0 then f else f + 1

/-- Model of Python `f"{q:.{prec}f}"` on an exact rational value: the scaled
magnitude `|q| * 10 ^ prec` is the fraction `q.num.natAbs * 10 ^ prec / q.den`,
rounded half-to-even. -/
def fmtFixed (prec : Nat) (q : ℚ) : String :=
  let m := rhe (q.num.natAbs * 10 ^ prec) q.den
  let sign : List Char := if q < 0 then ['-'] else []
  String.mk (sign ++ natStrChars (m / 10 ^ prec) ++
    '.' :: padLeftZeros prec (natStrChars (m % 10 ^ prec)))

/-- Python `f"{q:.2f}"`. -/
def fmt2 (q : ℚ) : String := fmtFixed 2 q

/-- Python `f"{q:.4f}"`. -/
def fmt4 (q : ℚ) : String := fmtFixed 4 q

/-- Python `f"{q:.6f}"`. -/
def fmt6 (q : ℚ) : String := fmtFixed 6 q

/-! ### The two candidate decoders (`PEKAnalyzer._analyze_peak_data`) -/

/-- Exact value of the IEEE-754 binary32 number stored little-endian in the
four bytes `b0 b1 b2 b3` (`struct.unpack('<f', ...)`): sign, 8 exponent bits,
23 mantissa bits.  `none` encodes a non-finite value (exponent 255:
infinities and NaNs), which can never satisfy the range test
`-1.0 <= value <= 1.0` in the source. -/
def f32val (b0 b1 b2 b3 : Byte) : Option ℚ :=
  let w : Nat := b0.val + 256 * b1.val + 65536 * b2.val + 16777216 * b3.val
  let e : Nat := w / 2 ^ 23 % 256
  let m : Nat := w % 2 ^ 23
  let neg : Bool := decide (2 ^ 31 ≤ w)
  if e = 255 then none
  else
    let mag : ℚ := if e = 0 then mkRat m (2 ^ 149) else mkRat ((2 ^ 23 + m) * 2 ^ e) (2 ^ 150)
    some (if neg then -mag else mag)

/-- Float32 decoder: the loop `for i in range(0, len(data) - 3, 4)` unpacking
`'<f'` windows and keeping only values with `-1.0 <= value <= 1.0`. -/
def decodeFloat32 : List Byte → List ℚ
  | b0 :: b1 :: b2 :: b3 :: rest =>
    (match f32val b0 b1 b2 b3 with
     | some v =>
       if -1 ≤ v ∧ v ≤ 1 then v :: decodeFloat32 rest else decodeFloat32 rest
     | none => decodeFloat32 rest)
  | _ => []

/-- The consecutive non-overlapping complete 4-byte windows of a buffer. -/
def chunks4 : List Byte → List (Byte × Byte × Byte × Byte)
  | b0 :: b1 :: b2 :: b3 :: rest => (b0, b1, b2, b3) :: chunks4 rest
  | _ => []

/-- The raw float32 window values of all complete windows (finite ones). -/
def float32Windows (data : List Byte) : List ℚ :=
  (chunks4 data).filterMap (fun w => f32val w.1 w.2.1 w.2.2.1 w.2.2.2)

/-- Signed 16-bit little-endian value of two bytes (`struct.unpack('<h', ...)`). -/
def int16val (b0 b1 : Byte) : Int :=
  let u := b0.val + 256 * b1.val
  if u < 32768 then (u : Int) else (u : Int) - 65536

/-- Int16 decoder: the loop `for i in range(0, len(data) - 1, 2)` unpacking
`'<h'` windows, keeping values with `-32768 <= value <= 32767` (always true)
and normalizing by `value / 32768.0`. -/
def decodeInt16 : List Byte → List ℚ
  | b0 :: b1 :: rest =>
    (if -32768 ≤ int16val b0 b1 ∧ int16val b0 b1 ≤ 32767 then
      mkRat (int16val b0 b1) 32768 :: decodeInt16 rest
     else decodeInt16 rest)
  | _ => []

/-- The consecutive non-overlapping complete 2-byte windows of a buffer. -/
def chunks2 : List Byte → List (Byte × Byte)
  | b0 :: b1 :: rest => (b0, b1) :: chunks2 rest
  | _ => []

/-- The selected decoding result, as the spec's Decoder Selector describes
it: the Int16 output exactly when it is strictly longer, else the Float32
output. -/
def selectedSamples (data : List Byte) : List ℚ :=
  if (decodeInt16 data).length > (decodeFloat32 data).length then decodeInt16 data
  else decodeFloat32 data

/-! ### Sample-rate scan (`PEKAnalyzer._extract_timing_info`) -/

/-- The allow-list `common_sample_rates` from the source. -/
def commonSampleRates : List Nat := [44100, 48000, 96000, 88200, 192000]

/-- Unsigned 32-bit little-endian value of four bytes (`struct.unpack('<I', ...)`). -/
def u32le (b0 b1 b2 b3 : Byte) : Nat :=
  b0.val + 256 * b1.val + 65536 * b2.val + 16777216 * b3.val

/-- The byte-by-byte scan `for i in range(0, len(data) - 3, 1)` testing each
4-byte little-endian window against the allow-list and breaking at the first
match. -/
def scanRates : List Byte → Option Nat
  | [] => none
  | b0 :: rest =>
    match rest with
    | b1 :: b2 :: b3 :: _ =>
      if u32le b0 b1 b2 b3 ∈ commonSampleRates then some (u32le b0 b1 b2 b3)
      else scanRates rest
    | _ => none

/-- The 4-byte little-endian window of `data` starting at byte offset `i`,
when the buffer holds at least 4 bytes from that offset. -/
def u32at (data : List Byte) (i : Nat) : Option Nat :=
  match data.drop i with
  | b0 :: b1 :: b2 :: b3 :: _ => some (u32le b0 b1 b2 b3)
  | _ => none

/-- The window values at all scan offsets, in ascending offset order. -/
def windowVals (data : List Byte) : List Nat :=
  (List.range (data.length - 3)).filterMap (fun i => u32at data i)

/-! ### Decimation (Python slicing `l[::step]`) -/

/-- `everyNthAux l k c`: the elements of `l` at indices `c, c + k, c + 2k, ...`
(`c` counts down to the next kept element). -/
def everyNthAux {α : Type} : List α → Nat → Nat → List α
  | [], _, _ => []
  | h :: t, k, 0 => h :: everyNthAux t k (k - 1)
  | _ :: t, k, c + 1 => everyNthAux t k c

/-- Python `l[::k]` for a stride `k ≥ 1`: every `k`-th element starting at
index 0. -/
def everyNth {α : Type} (l : List α) (k : Nat) : List α := everyNthAux l k 0

/-- The downsampled projection used by `export_waveform_data`
(`step = max(1, len // max_points)`, then `peaks[::step]`, with no cap). -/
def downsampleExport (peaks : List ℚ) (w : Nat) : List ℚ :=
  everyNth peaks (max 1 (peaks.length / w))

/-- The downsampled projection used by `create_ascii_waveform`
(`step = max(1, len // width)`, then `peaks[::step][:width]`). -/
def downsampleAscii (peaks : List ℚ) (w : Nat) : List ℚ :=
  (everyNth peaks (max 1 (peaks.length / w))).take w

/-! ### The analyzer state (`PEKAnalyzer` instance attributes) -/

/-- The `self.metadata` dictionary; `Option` models key presence. -/
structure Metadata where
  file_size : Option Nat := none
  file_size_formatted : Option String := none
  peak_count : Option Nat := none
  max_peak : Option ℚ := none
  min_peak : Option ℚ := none
  avg_peak : Option ℚ := none
  possible_sample_rate : Option Nat := none
  error : Option String := none
deriving DecidableEq

/-- The mutable state of a `PEKAnalyzer` instance (the `header` dict is
created but never populated or read, so it is omitted). -/
structure PEKAnalyzer where
  file_path : String
  peaks : List ℚ := []
  metadata : Metadata := {}
deriving DecidableEq

attribute [ext] Metadata PEKAnalyzer

/-- `PEKAnalyzer.__init__`. -/
def mkAnalyzer (p : String) : PEKAnalyzer := { file_path := p }

/-- Python `max` over a list (only applied to non-empty lists in the source). -/
def pyMax (l : List ℚ) : ℚ :=
  match l with
  | [] => 0
  | h :: t => t.foldl max h

/-- Python `min` over a list (only applied to non-empty lists in the source). -/
def pyMin (l : List ℚ) : ℚ :=
  match l with
  | [] => 0
  | h :: t => t.foldl min h

/-- `sum(abs(v) for v in l)`. -/
def sumAbs (l : List ℚ) : ℚ := (l.map pyAbs).foldl qadd 0

/-- `sum(abs(v) for v in l) / len(l)`. -/
def avgAbs (l : List ℚ) : ℚ := qdivNat (sumAbs l) l.length

/-- The block of assignments performed when a decoder's output is adopted:
`self.peaks = vals` together with the `peak_count` / `max_peak` / `min_peak` /
`avg_peak` metadata entries. -/
def setPeakStats (vals : List ℚ) (a : PEKAnalyzer) : PEKAnalyzer :=
  { a with
    peaks := vals,
    metadata := { a.metadata with
      peak_count := some vals.length,
      max_peak := some (pyMax vals),
      min_peak := some (pyMin vals),
      avg_peak := some (avgAbs vals) } }

/-- `PEKAnalyzer._analyze_peak_data`: run the Float32 decoder, adopt its
result when non-empty, then run the Int16 decoder and adopt its result when
strictly longer than the Float32 one. -/
def analyzePeakData (data : List Byte) (a : PEKAnalyzer) : PEKAnalyzer :=
  let floats := decodeFloat32 data
  let a1 := if floats ≠ [] then setPeakStats floats a else a
  let shorts := decodeInt16 data
  if shorts.length > floats.length then setPeakStats shorts a1 else a1

/-- `PEKAnalyzer._extract_timing_info`: record the first allow-listed 4-byte
window value, if any. -/
def extractTimingInfo (data : List Byte) (a : PEKAnalyzer) : PEKAnalyzer :=
  match scanRates data with
  | some v => { a with metadata := { a.metadata with possible_sample_rate := some v } }
  | none => a

/-- `PEKAnalyzer.format_size`: repeated division by 1024 through the units
B, KB, MB, GB, falling through to TB, with 2-decimal formatting. -/
def format_size (sz : Nat) : String :=
  if (mkRat sz 1 : ℚ) < 1024 then fmt2 (mkRat sz 1) ++ " B"
  else if (mkRat sz 1024 : ℚ) < 1024 then fmt2 (mkRat sz 1024) ++ " KB"
  else if (mkRat sz (1024 ^ 2) : ℚ) < 1024 then fmt2 (mkRat sz (1024 ^ 2)) ++ " MB"
  else if (mkRat sz (1024 ^ 3) : ℚ) < 1024 then fmt2 (mkRat sz (1024 ^ 3)) ++ " GB"
  else fmt2 (mkRat sz (1024 ^ 4)) ++ " TB"

/-- `PEKAnalyzer._parse_basic_structure`: record the file size fields, then
run peak analysis and the timing scan on the whole buffer (the size reported
by `os.path.getsize` equals the length of the buffer read). -/
def parseBasicStructure (data : List Byte) (a : PEKAnalyzer) : PEKAnalyzer :=
  let a1 := { a with metadata := { a.metadata with
    file_size := some data.length,
    file_size_formatted := some (format_size data.length) } }
  extractTimingInfo data (analyzePeakData data a1)

/-- The error message stored by the `except` clause of `read_pek_file`
(`str(e)`; the exact text is environment-dependent, only its presence is
observable in the metadata). -/
def errMsg (p : String) : String := "unable to read " ++ p

/-- `PEKAnalyzer.read_pek_file`: the file system is modelled by a function
from paths to optional buffer contents (`none` = opening/reading raises). -/
def read_pek_file (fs : String → Option (List Byte)) (a : PEKAnalyzer) :
    PEKAnalyzer × Bool :=
  match fs a.file_path with
  | some data => (parseBasicStructure data a, true)
  | none => ({ a with metadata := { a.metadata with error := some (errMsg a.file_path) } }, false)

/-! ### `PEKAnalyzer.get_audio_info` and duration formatting -/

/-- `os.path.basename` (POSIX separator model): the part of the path after
the last slash. -/
def basename (p : String) : String :=
  String.mk ((p.data.reverse.takeWhile (fun c => c ≠ '/')).reverse)

/-- `str(datetime.timedelta(seconds = n))` for a nonnegative whole number of
seconds: `H:MM:SS`, prefixed by a day count when `n` reaches one day. -/
def fmtTimedelta (n : Nat) : String :=
  let days := n / 86400
  let h := n % 86400 / 3600
  let m := n % 3600 / 60
  let s := n % 60
  let hms := natStrChars h ++ ':' :: padLeftZeros 2 (natStrChars m) ++
    ':' :: padLeftZeros 2 (natStrChars s)
  if days = 0 then String.mk hms
  else if days = 1 then String.mk ("1 day, ".data ++ hms)
  else String.mk (natStrChars days ++ " days, ".data ++ hms)

/-- Shape test for `H:MM:SS`: one or more digits, a colon, two digits, a
colon, two digits. -/
def isHMMSSChars (cs : List Char) : Bool :=
  let ds := cs.takeWhile Char.isDigit
  let rest := cs.dropWhile Char.isDigit
  decide (ds ≠ []) &&
    match rest with
    | ':' :: a :: b :: ':' :: c :: d :: [] => a.isDigit && b.isDigit && c.isDigit && d.isDigit
    | _ => false

/-- Shape test for `H:MM:SS` on a string. -/
def isHMMSS (s : String) : Bool := isHMMSSChars s.data

/-- The single-file summary dictionary built by `get_audio_info`; `Option`
fields model conditionally-added keys. -/
structure AudioInfo where
  file_name : String
  file_path : String
  file_size : Nat
  file_size_formatted : String
  peak_samples : Option Nat := none
  max_amplitude : Option String := none
  min_amplitude : Option String := none
  avg_amplitude : Option String := none
  estimated_duration : Option String := none
  sample_rate : Option String := none
  created : Option String := none
  modified : Option String := none
deriving DecidableEq

/-- `PEKAnalyzer.get_audio_info`: `stat` models `os.stat` plus the two
`strftime` calls, yielding the formatted creation/modification timestamps
(or `none` when `os.stat` raises).  The float division
`peak_count / sample_rate` followed by `int(...)` truncation is modelled by
exact natural division. -/
def get_audio_info (stat : String → Option (String × String)) (a : PEKAnalyzer) :
    AudioInfo :=
  let base : AudioInfo := {
    file_name := basename a.file_path,
    file_path := a.file_path,
    file_size := a.metadata.file_size.getD 0,
    file_size_formatted := a.metadata.file_size_formatted.getD "0 B" }
  let info1 :=
    match a.metadata.peak_count with
    | some c =>
      let withPeaks := { base with
        peak_samples := some c,
        max_amplitude := some (fmt4 (a.metadata.max_peak.getD 0)),
        min_amplitude := some (fmt4 (a.metadata.min_peak.getD 0)),
        avg_amplitude := some (fmt4 (a.metadata.avg_peak.getD 0)) }
      match a.metadata.possible_sample_rate with
      | some r => { withPeaks with
          estimated_duration := some (fmtTimedelta (c / r)),
          sample_rate := some (natToStr r ++ " Hz") }
      | none => withPeaks
    | none => base
  match stat a.file_path with
  | some (cr, md) => { info1 with created := some cr, modified := some md }
  | none => info1

/-! ### Waveform export and ASCII rendering -/

/-- The text file written by `export_waveform_data`: five comment lines, one
blank line, then the data rows. -/
structure ExportFile where
  header : List String
  rows : List String
deriving DecidableEq

/-- `PEKAnalyzer.export_waveform_data`: `none` models the `return False` path
where no file is opened or written; `some` carries the lines written. -/
def export_waveform_data (a : PEKAnalyzer) (maxPoints : Nat) : Option ExportFile :=
  if a.peaks = [] then none
  else
    let step := max 1 (a.peaks.length / maxPoints)
    let reduced := downsampleExport a.peaks maxPoints
    some {
      header := ["# Waveform data from PEK file",
                 "# Source: " ++ a.file_path,
                 "# Total samples: " ++ natToStr a.peaks.length,
                 "# Displayed samples: " ++ natToStr reduced.length,
                 "# Format: sample_index,amplitude", ""],
      rows := reduced.enum.map (fun ip => natToStr (ip.1 * step) ++ "," ++ fmt6 ip.2) }

/-- Python `int(q)` (truncation toward zero) on an exact rational. -/
def truncQ (q : ℚ) : Int :=
  if q < 0 then -(((-q).num.toNat / (-q).den : Nat) : Int)
  else ((q.num.toNat / q.den : Nat) : Int)

/-- `PEKAnalyzer.create_ascii_waveform`: decimate to the target width, scale
by the peak magnitude of the rendered subset, and draw the mirrored bar grid. -/
def create_ascii_waveform (a : PEKAnalyzer) (width height : Nat) : String :=
  if a.peaks = [] then "Nenhum dado de forma de onda disponível"
  else
    let reduced := downsampleAscii a.peaks width
    let normalized : List Int :=
      if reduced ≠ [] then
        let maxVal := max (pyAbs (pyMin reduced)) (pyAbs (pyMax reduced))
        if maxVal > 0 then reduced.map (fun p => truncQ (p / maxVal * (height / 2 : Nat)))
        else reduced.map (fun _ => 0)
      else []
    let rowVals : List Int :=
      (List.range (height / 2 + height / 2)).map (fun k => ((height / 2 : Nat) : Int) - k)
    let cell : Int → Int → Char := fun v row =>
      if (v ≥ row ∧ row > 0) ∨ (v ≤ row ∧ row < 0) then '█'
      else if row = 0 then '─' else ' '
    String.intercalate "\n" (rowVals.map (fun row => String.mk (normalized.map (fun v => cell v row))))

/-! ### Single-file driver and batch aggregation -/

/-- `analyze_pek_file`: build a fresh analyzer, run `read_pek_file`, and
return the analyzer only on success (`None` on failure). -/
def analyze_pek_file (fs : String → Option (List Byte)) (p : String) :
    Option PEKAnalyzer :=
  let r := read_pek_file fs (mkAnalyzer p)
  if r.2 then some r.1 else none

/-- The batch loop of `main` (option 2/3): for each path, analyze and append
`get_audio_info` to `results` only when an analyzer is returned. -/
def batchResults (fs : String → Option (List Byte))
    (stat : String → Option (String × String)) (paths : List String) :
    List AudioInfo :=
  paths.filterMap (fun p => (analyze_pek_file fs p).map (get_audio_info stat))

/-- The amplitude statistics stored in the metadata agree with the stored
peak list. -/
def statsConsistent (a : PEKAnalyzer) : Prop :=
  a.metadata.peak_count = some a.peaks.length ∧
  a.metadata.max_peak = some (pyMax a.peaks) ∧
  a.metadata.min_peak = some (pyMin a.peaks) ∧
  a.metadata.avg_peak = some (avgAbs a.peaks)

/-! ### Concrete inputs used by counterexamples and witnesses -/

/-- A `stat` model where `os.stat` raises (timestamps absent). -/
def stat0 : String → Option (String × String) := fun _ => none

/-- A file system with one unreadable path and readable two-byte files
everywhere else. -/
def fs0 : String → Option (List Byte) := fun p => if p = "bad" then none else some [0, 0]

/-- The spec's example buffer `00 00 80 3F 00 00 00 00`. -/
def exBytes : List Byte := [0, 0, 128, 63, 0, 0, 0, 0]

/-- A file system serving the example buffer for every path. -/
def fsEx : String → Option (List Byte) := fun _ => some exBytes

/-- Three decoded samples, used to exhibit uncapped export downsampling. -/
def cexPeaks : List ℚ := [0, 0, 0]

/-- An analyzer holding the three samples above. -/
def cexAnalyzer : PEKAnalyzer := { mkAnalyzer "cex.pek" with peaks := cexPeaks }

/-- An analyzer state whose decoded-sample count spans exactly one day at
44100 Hz. -/
def c7big : PEKAnalyzer :=
  { file_path := "big.pek", peaks := [0],
    metadata := { peak_count := some 3810240000, possible_sample_rate := some 44100,
                  max_peak := some 0, min_peak := some 0, avg_peak := some 0 } }

/-- An analyzer state whose decoded-sample count spans 1:01:01 at 44100 Hz. -/
def c7wit : PEKAnalyzer :=
  { file_path := "w.pek", peaks := [0],
    metadata := { peak_count := some 161444100, possible_sample_rate := some 44100,
                  max_peak := some 0, min_peak := some 0, avg_peak := some 0 } }

/-- A two-byte buffer decoding (via the Int16 hypothesis) to the single
sample `-1`. -/
def c8data : List Byte := [0, 128]

end PEK

namespace PEK

/-! ### The `mkRat` helpers agree with the field operations -/

theorem qadd_eq_add (a b : ℚ) : qadd a b = a + b := by
  have hb : ((b.den : ℚ)) ≠ 0 := Nat.cast_ne_zero.mpr b.den_nz
  have ha : ((a.den : ℚ)) ≠ 0 := Nat.cast_ne_zero.mpr a.den_nz
  rw [qadd, Rat.mkRat_eq_div]
  push_cast
  conv_rhs => rw [← Rat.num_div_den a, ← Rat.num_div_den b]
  rw [div_add_div _ _ ha hb]
  ring_nf

theorem qdivNat_eq_div (a : ℚ) (n : Nat) : qdivNat a n = a / (n : ℚ) := by
  rw [qdivNat, Rat.mkRat_eq_div]
  push_cast
  rw [← div_div]
  rw [Rat.num_div_den a]

theorem pyAbs_eq_abs (q : ℚ) : pyAbs q = |q| := by
  unfold pyAbs
  split
  · rw [abs_of_neg (by assumption)]
  · rw [abs_of_nonneg (by linarith [not_lt.mp (by assumption)])]

theorem sumAbs_eq (l : List ℚ) : sumAbs l = ((l.map (fun q => |q|)).sum : ℚ) := by
  unfold sumAbs
  have hmap : l.map pyAbs = l.map (fun q => |q|) := by
    apply List.map_congr_left
    intro q _
    exact pyAbs_eq_abs q
  rw [hmap]
  have hfd : ∀ (init : ℚ) (m : List ℚ), m.foldl qadd init = init + m.sum := by
    intro init m
    induction m generalizing init with
    | nil => simp
    | cons x xs ih =>
      simp only [List.foldl_cons, List.sum_cons, ih, qadd_eq_add]
      ring
  rw [hfd]
  ring

theorem avgAbs_eq (l : List ℚ) :
    avgAbs l = ((l.map (fun q => |q|)).sum : ℚ) / (l.length : ℚ) := by
  rw [avgAbs, qdivNat_eq_div, sumAbs_eq]

/-! ### Float32 decoder (C3) -/

theorem chunks4_length (data : List Byte) : (chunks4 data).length = data.length / 4 := by
  induction data using chunks4.induct with
  | case1 b0 b1 b2 b3 rest ih =>
    simp only [chunks4, List.length_cons, ih]
    omega
  | case2 t h =>
    rcases t with _ | ⟨a, _ | ⟨b, _ | ⟨c, _ | ⟨d, t⟩⟩⟩⟩
    · rfl
    · simp [chunks4]
    · simp [chunks4]
    · simp [chunks4]
    · exact absurd rfl (h a b c d t)

theorem decodeFloat32_eq_filter (data : List Byte) :
    decodeFloat32 data = (float32Windows data).filter (fun q => decide (-1 ≤ q ∧ q ≤ 1)) := by
  induction data using decodeFloat32.induct with
  | case1 b0 b1 b2 b3 rest v hv hr ih =>
    simp only [decodeFloat32, float32Windows, chunks4, hv, List.filterMap_cons, if_pos hr,
      List.filter_cons, ih]
    simp [hr, float32Windows]
  | case2 b0 b1 b2 b3 rest v hv hr ih =>
    simp only [decodeFloat32, float32Windows, chunks4, hv, List.filterMap_cons, if_neg hr,
      List.filter_cons, ih]
    simp [hr]
  | case3 b0 b1 b2 b3 rest hv ih =>
    simp only [decodeFloat32, float32Windows, chunks4, hv, List.filterMap_cons, ih]
  | case4 t h =>
    rcases t with _ | ⟨a, _ | ⟨b, _ | ⟨c, _ | ⟨d, t⟩⟩⟩⟩
    · rfl
    · rfl
    · rfl
    · rfl
    · exact absurd rfl (h a b c d t)

theorem decodeFloat32_length_le (data : List Byte) :
    (decodeFloat32 data).length ≤ data.length / 4 := by
  rw [decodeFloat32_eq_filter, ← chunks4_length]
  exact le_trans (List.length_filter_le _ _) (List.length_filterMap_le _ _)

theorem decodeFloat32_mem_range (data : List Byte) :
    ∀ q ∈ decodeFloat32 data, -1 ≤ q ∧ q ≤ 1 := by
  intro q hq
  rw [decodeFloat32_eq_filter] at hq
  have := List.of_mem_filter hq
  simpa using this

theorem decodeFloat32_all_range (data : List Byte) :
    (decodeFloat32 data).all (fun q => decide (-1 ≤ q ∧ q ≤ 1)) = true := by
  rw [List.all_eq_true]
  intro q hq
  rw [decide_eq_true_eq]
  exact decodeFloat32_mem_range data q hq

/-! ### Int16 decoder (C4) -/

theorem int16val_bounds (b0 b1 : Byte) :
    -32768 ≤ int16val b0 b1 ∧ int16val b0 b1 ≤ 32767 := by
  have h0 := b0.isLt
  have h1 := b1.isLt
  simp only [int16val]
  split <;> constructor <;> omega

theorem chunks2_length (data : List Byte) : (chunks2 data).length = data.length / 2 := by
  induction data using chunks2.induct with
  | case1 b0 b1 rest ih =>
    simp only [chunks2, List.length_cons, ih]
    omega
  | case2 t h =>
    rcases t with _ | ⟨a, _ | ⟨b, t⟩⟩
    · rfl
    · simp [chunks2]
    · exact absurd rfl (h a b t)

theorem decodeInt16_eq_map (data : List Byte) :
    decodeInt16 data = (chunks2 data).map
      (fun w => ((int16val w.1 w.2 : ℚ) / 32768)) := by
  have hv : ∀ b0 b1 : Byte, mkRat (int16val b0 b1) 32768 = ((int16val b0 b1 : ℚ) / 32768) := by
    intro b0 b1
    rw [Rat.mkRat_eq_div]
    norm_num
  induction data using decodeInt16.induct with
  | case1 b0 b1 rest hr ih =>
    simp only [decodeInt16, chunks2, List.map_cons, if_pos hr, ih, hv]
  | case2 b0 b1 rest hr ih =>
    exact absurd (int16val_bounds b0 b1) hr
  | case3 t h =>
    rcases t with _ | ⟨a, _ | ⟨b, t⟩⟩
    · rfl
    · rfl
    · exact absurd rfl (h a b t)

theorem decodeInt16_length (data : List Byte) :
    (decodeInt16 data).length = data.length / 2 := by
  rw [decodeInt16_eq_map, List.length_map, chunks2_length]

theorem int16_norm_range (v : Int) (h : -32768 ≤ v ∧ v ≤ 32767) :
    -1 ≤ (v : ℚ) / 32768 ∧ (v : ℚ) / 32768 ≤ 1 := by
  have hpos : (0 : ℚ) < 32768 := by norm_num
  constructor
  · rw [le_div_iff₀ hpos]
    have : (-32768 : ℚ) ≤ (v : ℚ) := by exact_mod_cast h.1
    linarith
  · rw [div_le_one hpos]
    have : (v : ℚ) ≤ 32767 := by exact_mod_cast h.2
    linarith

theorem decodeInt16_mem_range (data : List Byte) :
    ∀ q ∈ decodeInt16 data, -1 ≤ q ∧ q ≤ 1 := by
  intro q hq
  rw [decodeInt16_eq_map] at hq
  obtain ⟨w, _, rfl⟩ := List.mem_map.mp hq
  exact int16_norm_range _ (int16val_bounds w.1 w.2)

theorem decodeInt16_all_range (data : List Byte) :
    (decodeInt16 data).all (fun q => decide (-1 ≤ q ∧ q ≤ 1)) = true := by
  rw [List.all_eq_true]
  intro q hq
  rw [decide_eq_true_eq]
  exact decodeInt16_mem_range data q hq

end PEK

namespace PEK

/-! ### Decimation lemmas (C5) -/

theorem everyNthAux_get? {α : Type} (l : List α) (k : Nat) (hk : 1 ≤ k) :
    ∀ (c j : Nat), (everyNthAux l k c).get? j = l.get? (c + j * k) := by
  induction l with
  | nil => intro c j; simp [everyNthAux]
  | cons h t ih =>
    intro c j
    match c with
    | 0 =>
      match j with
      | 0 => simp [everyNthAux]
      | j + 1 =>
        have e : (j + 1) * k = (k - 1 + j * k) + 1 := by
          have hm : (j + 1) * k = j * k + k := by ring
          omega
        simp only [everyNthAux, Nat.zero_add, e, List.get?_cons_succ]
        exact ih (k - 1) j
    | c + 1 =>
      have e : c + 1 + j * k = (c + j * k) + 1 := by omega
      simp only [everyNthAux, e, List.get?_cons_succ]
      exact ih c j

theorem everyNthAux_length {α : Type} (l : List α) (k : Nat) (hk : 1 ≤ k) :
    ∀ c : Nat, (everyNthAux l k c).length = (l.length - c + k - 1) / k := by
  induction l with
  | nil =>
    intro c
    simp only [everyNthAux, List.length_nil]
    rw [Nat.div_eq_of_lt (by omega)]
  | cons h t ih =>
    intro c
    match c with
    | 0 =>
      simp only [everyNthAux, List.length_cons, ih (k - 1)]
      rcases le_or_lt (k - 1) t.length with hle | hlt
      · have e1 : t.length - (k - 1) + k - 1 = t.length := by omega
        have e2 : t.length + 1 - 0 + k - 1 = t.length + k := by omega
        rw [e1, e2, Nat.add_div_right _ (by omega)]
      · have e1 : t.length - (k - 1) + k - 1 = k - 1 := by omega
        have e2 : t.length + 1 - 0 + k - 1 = t.length + k := by omega
        rw [e1, e2, Nat.add_div_right _ (by omega), Nat.div_eq_of_lt (by omega),
          Nat.div_eq_of_lt (by omega)]
    | c + 1 =>
      simp only [everyNthAux, List.length_cons, ih c]
      have e : t.length + 1 - (c + 1) = t.length - c := by omega
      rw [e]

theorem everyNth_length {α : Type} (l : List α) (k : Nat) (hk : 1 ≤ k) :
    (everyNth l k).length = (l.length + k - 1) / k := by
  rw [everyNth, everyNthAux_length l k hk 0]
  congr 1

theorem everyNth_get? {α : Type} (l : List α) (k : Nat) (hk : 1 ≤ k) (j : Nat) :
    (everyNth l k).get? j = l.get? (j * k) := by
  rw [everyNth, everyNthAux_get? l k hk 0 j, Nat.zero_add]

/-! ### Sample-rate scan lemmas (C6) -/

theorem u32at_zero (b0 b1 b2 b3 : Byte) (t : List Byte) :
    u32at (b0 :: b1 :: b2 :: b3 :: t) 0 = some (u32le b0 b1 b2 b3) := rfl

theorem u32at_cons_succ (b : Byte) (l : List Byte) (i : Nat) :
    u32at (b :: l) (i + 1) = u32at l i := by
  simp [u32at, List.drop_succ_cons]

theorem windowVals_cons (b0 b1 b2 b3 : Byte) (t : List Byte) :
    windowVals (b0 :: b1 :: b2 :: b3 :: t) =
      u32le b0 b1 b2 b3 :: windowVals (b1 :: b2 :: b3 :: t) := by
  simp only [windowVals, List.length_cons]
  have e : t.length + 1 + 1 + 1 + 1 - 3 = (t.length + 1 + 1 + 1 - 3) + 1 := by omega
  rw [e, List.range_succ_eq_map, List.filterMap_cons, u32at_zero, List.filterMap_map]
  congr 1

theorem scanRates_eq_find (data : List Byte) :
    scanRates data = (windowVals data).find? (fun v => decide (v ∈ commonSampleRates)) := by
  induction data using scanRates.induct with
  | case1 => rfl
  | case2 b0 b1 b2 b3 tail hmem =>
    rw [scanRates, windowVals_cons]
    simp only [if_pos hmem]
    rw [List.find?_cons_of_pos _ (by simpa using hmem)]
  | case3 b0 b1 b2 b3 tail hmem ih =>
    rw [scanRates, windowVals_cons]
    simp only [if_neg hmem]
    rw [List.find?_cons_of_neg _ (by simpa using hmem)]
    exact ih
  | case4 b0 rest h =>
    rcases rest with _ | ⟨a, _ | ⟨b, _ | ⟨c, t⟩⟩⟩
    · rfl
    · rfl
    · rfl
    · exact absurd rfl (h a b c t)

/-! ### Selector and statistics lemmas (C2, C8) -/

theorem extractTimingInfo_peaks (data : List Byte) (a : PEKAnalyzer) :
    (extractTimingInfo data a).peaks = a.peaks := by
  unfold extractTimingInfo
  cases scanRates data <;> rfl

theorem extractTimingInfo_stats (data : List Byte) (a : PEKAnalyzer) :
    (extractTimingInfo data a).metadata.peak_count = a.metadata.peak_count ∧
    (extractTimingInfo data a).metadata.max_peak = a.metadata.max_peak ∧
    (extractTimingInfo data a).metadata.min_peak = a.metadata.min_peak ∧
    (extractTimingInfo data a).metadata.avg_peak = a.metadata.avg_peak := by
  unfold extractTimingInfo
  cases scanRates data <;> exact ⟨rfl, rfl, rfl, rfl⟩

theorem analyzePeakData_peaks (data : List Byte) (a : PEKAnalyzer) (ha : a.peaks = []) :
    (analyzePeakData data a).peaks = selectedSamples data := by
  unfold analyzePeakData selectedSamples
  by_cases hf : decodeFloat32 data = []
  · by_cases hs : 0 < (decodeInt16 data).length
    · simp [hf, hs, setPeakStats]
    · simp [hf, hs, setPeakStats, ha]
  · by_cases hs : (decodeInt16 data).length > (decodeFloat32 data).length
    · simp [hf, hs, setPeakStats]
    · simp [hf, hs, setPeakStats]

theorem parse_peaks (data : List Byte) (p : String) :
    (parseBasicStructure data (mkAnalyzer p)).peaks = selectedSamples data := by
  unfold parseBasicStructure
  rw [extractTimingInfo_peaks]
  exact analyzePeakData_peaks data _ rfl

theorem analyzePeakData_statsConsistent (data : List Byte) (a : PEKAnalyzer)
    (ha : a.peaks = []) (hne : (analyzePeakData data a).peaks ≠ []) :
    statsConsistent (analyzePeakData data a) := by
  unfold analyzePeakData at *
  by_cases hf : decodeFloat32 data = []
  · by_cases hs : 0 < (decodeInt16 data).length
    · simp only [statsConsistent]
      simp [hf, hs, setPeakStats]
    · simp [hf, hs, setPeakStats, ha] at hne
  · by_cases hs : (decodeInt16 data).length > (decodeFloat32 data).length
    · simp only [statsConsistent]
      simp [hf, hs, setPeakStats]
    · simp only [statsConsistent]
      simp [hf, hs, setPeakStats]

theorem parse_statsConsistent (data : List Byte) (p : String)
    (hne : (parseBasicStructure data (mkAnalyzer p)).peaks ≠ []) :
    statsConsistent (parseBasicStructure data (mkAnalyzer p)) := by
  unfold parseBasicStructure at *
  rw [extractTimingInfo_peaks] at hne
  have h := analyzePeakData_statsConsistent data
    { mkAnalyzer p with metadata := { (mkAnalyzer p).metadata with
        file_size := some data.length,
        file_size_formatted := some (format_size data.length) } } rfl hne
  unfold statsConsistent at *
  obtain ⟨h1, h2, h3, h4⟩ := extractTimingInfo_stats data
    (analyzePeakData data { mkAnalyzer p with metadata := { (mkAnalyzer p).metadata with
        file_size := some data.length,
        file_size_formatted := some (format_size data.length) } })
  rw [extractTimingInfo_peaks, h1, h2, h3, h4]
  exact h

end PEK

namespace PEK

/-! ### Field projections of the parse pipeline (C6, C9) -/

theorem analyzePeakData_file_path (data : List Byte) (a : PEKAnalyzer) :
    (analyzePeakData data a).file_path = a.file_path := by
  unfold analyzePeakData
  by_cases hf : decodeFloat32 data = []
  · by_cases hs : 0 < (decodeInt16 data).length
    · simp [hf, hs, setPeakStats]
    · simp [hf, hs, setPeakStats]
  · by_cases hs : (decodeInt16 data).length > (decodeFloat32 data).length
    · simp [hf, hs, setPeakStats]
    · simp [hf, hs, setPeakStats]

theorem extractTimingInfo_file_path (data : List Byte) (a : PEKAnalyzer) :
    (extractTimingInfo data a).file_path = a.file_path := by
  unfold extractTimingInfo
  cases scanRates data <;> rfl

theorem parse_file_path (data : List Byte) (a : PEKAnalyzer) :
    (parseBasicStructure data a).file_path = a.file_path := by
  unfold parseBasicStructure
  rw [extractTimingInfo_file_path, analyzePeakData_file_path]

theorem parse_peaks_general (d : List Byte) (a : PEKAnalyzer) :
    (parseBasicStructure d a).peaks =
      if (decodeInt16 d).length > (decodeFloat32 d).length then decodeInt16 d
      else if decodeFloat32 d ≠ [] then decodeFloat32 d else a.peaks := by
  unfold parseBasicStructure
  rw [extractTimingInfo_peaks]
  unfold analyzePeakData
  by_cases hf : decodeFloat32 d = []
  · by_cases hs : 0 < (decodeInt16 d).length
    · simp [hf, hs, setPeakStats]
    · simp [hf, hs, setPeakStats]
  · by_cases hs : (decodeInt16 d).length > (decodeFloat32 d).length
    · simp [hf, hs, setPeakStats]
    · simp [hf, hs, setPeakStats]

theorem parse_peak_count (d : List Byte) (a : PEKAnalyzer) :
    (parseBasicStructure d a).metadata.peak_count =
      if (decodeInt16 d).length > (decodeFloat32 d).length then some (decodeInt16 d).length
      else if decodeFloat32 d ≠ [] then some (decodeFloat32 d).length
      else a.metadata.peak_count := by
  unfold parseBasicStructure
  rw [(extractTimingInfo_stats d _).1]
  unfold analyzePeakData
  by_cases hf : decodeFloat32 d = []
  · by_cases hs : 0 < (decodeInt16 d).length
    · simp [hf, hs, setPeakStats]
    · simp [hf, hs, setPeakStats]
  · by_cases hs : (decodeInt16 d).length > (decodeFloat32 d).length
    · simp [hf, hs, setPeakStats]
    · simp [hf, hs, setPeakStats]

theorem parse_max_peak (d : List Byte) (a : PEKAnalyzer) :
    (parseBasicStructure d a).metadata.max_peak =
      if (decodeInt16 d).length > (decodeFloat32 d).length then some (pyMax (decodeInt16 d))
      else if decodeFloat32 d ≠ [] then some (pyMax (decodeFloat32 d))
      else a.metadata.max_peak := by
  unfold parseBasicStructure
  rw [(extractTimingInfo_stats d _).2.1]
  unfold analyzePeakData
  by_cases hf : decodeFloat32 d = []
  · by_cases hs : 0 < (decodeInt16 d).length
    · simp [hf, hs, setPeakStats]
    · simp [hf, hs, setPeakStats]
  · by_cases hs : (decodeInt16 d).length > (decodeFloat32 d).length
    · simp [hf, hs, setPeakStats]
    · simp [hf, hs, setPeakStats]

theorem parse_min_peak (d : List Byte) (a : PEKAnalyzer) :
    (parseBasicStructure d a).metadata.min_peak =
      if (decodeInt16 d).length > (decodeFloat32 d).length then some (pyMin (decodeInt16 d))
      else if decodeFloat32 d ≠ [] then some (pyMin (decodeFloat32 d))
      else a.metadata.min_peak := by
  unfold parseBasicStructure
  rw [(extractTimingInfo_stats d _).2.2.1]
  unfold analyzePeakData
  by_cases hf : decodeFloat32 d = []
  · by_cases hs : 0 < (decodeInt16 d).length
    · simp [hf, hs, setPeakStats]
    · simp [hf, hs, setPeakStats]
  · by_cases hs : (decodeInt16 d).length > (decodeFloat32 d).length
    · simp [hf, hs, setPeakStats]
    · simp [hf, hs, setPeakStats]

theorem parse_avg_peak (d : List Byte) (a : PEKAnalyzer) :
    (parseBasicStructure d a).metadata.avg_peak =
      if (decodeInt16 d).length > (decodeFloat32 d).length then some (avgAbs (decodeInt16 d))
      else if decodeFloat32 d ≠ [] then some (avgAbs (decodeFloat32 d))
      else a.metadata.avg_peak := by
  unfold parseBasicStructure
  rw [(extractTimingInfo_stats d _).2.2.2]
  unfold analyzePeakData
  by_cases hf : decodeFloat32 d = []
  · by_cases hs : 0 < (decodeInt16 d).length
    · simp [hf, hs, setPeakStats]
    · simp [hf, hs, setPeakStats]
  · by_cases hs : (decodeInt16 d).length > (decodeFloat32 d).length
    · simp [hf, hs, setPeakStats]
    · simp [hf, hs, setPeakStats]

theorem analyzePeakData_file_size (d : List Byte) (a : PEKAnalyzer) :
    (analyzePeakData d a).metadata.file_size = a.metadata.file_size ∧
    (analyzePeakData d a).metadata.file_size_formatted = a.metadata.file_size_formatted ∧
    (analyzePeakData d a).metadata.possible_sample_rate = a.metadata.possible_sample_rate ∧
    (analyzePeakData d a).metadata.error = a.metadata.error := by
  unfold analyzePeakData
  by_cases hf : decodeFloat32 d = []
  · by_cases hs : 0 < (decodeInt16 d).length
    · simp [hf, hs, setPeakStats]
    · simp [hf, hs, setPeakStats]
  · by_cases hs : (decodeInt16 d).length > (decodeFloat32 d).length
    · simp [hf, hs, setPeakStats]
    · simp [hf, hs, setPeakStats]

theorem extractTimingInfo_file_size (d : List Byte) (a : PEKAnalyzer) :
    (extractTimingInfo d a).metadata.file_size = a.metadata.file_size ∧
    (extractTimingInfo d a).metadata.file_size_formatted = a.metadata.file_size_formatted ∧
    (extractTimingInfo d a).metadata.error = a.metadata.error := by
  unfold extractTimingInfo
  cases scanRates d <;> exact ⟨rfl, rfl, rfl⟩

theorem parse_file_size (d : List Byte) (a : PEKAnalyzer) :
    (parseBasicStructure d a).metadata.file_size = some d.length ∧
    (parseBasicStructure d a).metadata.file_size_formatted = some (format_size d.length) := by
  unfold parseBasicStructure
  obtain ⟨e1, e2, _⟩ := extractTimingInfo_file_size d (analyzePeakData d _)
  obtain ⟨f1, f2, _, _⟩ := analyzePeakData_file_size d _
  rw [e1, e2, f1, f2]
  exact ⟨rfl, rfl⟩

theorem parse_error (d : List Byte) (a : PEKAnalyzer) :
    (parseBasicStructure d a).metadata.error = a.metadata.error := by
  unfold parseBasicStructure
  rw [(extractTimingInfo_file_size d _).2.2, (analyzePeakData_file_size d _).2.2.2]

theorem parse_rate (d : List Byte) (a : PEKAnalyzer) :
    (parseBasicStructure d a).metadata.possible_sample_rate =
      match scanRates d with
      | some v => some v
      | none => a.metadata.possible_sample_rate := by
  unfold parseBasicStructure extractTimingInfo
  cases hsc : scanRates d
  · simp only [hsc, (analyzePeakData_file_size d _).2.2.1]
  · rfl

theorem parse_idem (d : List Byte) (a : PEKAnalyzer) :
    parseBasicStructure d (parseBasicStructure d a) = parseBasicStructure d a := by
  ext1
  · rw [parse_file_path]
  · rw [parse_peaks_general, parse_peaks_general d a]
    by_cases hs : (decodeInt16 d).length > (decodeFloat32 d).length
    · simp [hs]
    · by_cases hf : decodeFloat32 d ≠ [] <;> simp [hs, hf]
  · ext1
    · rw [(parse_file_size d _).1, (parse_file_size d a).1]
    · rw [(parse_file_size d _).2, (parse_file_size d a).2]
    · rw [parse_peak_count, parse_peak_count d a]
      by_cases hs : (decodeInt16 d).length > (decodeFloat32 d).length
      · simp [hs]
      · by_cases hf : decodeFloat32 d ≠ [] <;> simp [hs, hf]
    · rw [parse_max_peak, parse_max_peak d a]
      by_cases hs : (decodeInt16 d).length > (decodeFloat32 d).length
      · simp [hs]
      · by_cases hf : decodeFloat32 d ≠ [] <;> simp [hs, hf]
    · rw [parse_min_peak, parse_min_peak d a]
      by_cases hs : (decodeInt16 d).length > (decodeFloat32 d).length
      · simp [hs]
      · by_cases hf : decodeFloat32 d ≠ [] <;> simp [hs, hf]
    · rw [parse_avg_peak, parse_avg_peak d a]
      by_cases hs : (decodeInt16 d).length > (decodeFloat32 d).length
      · simp [hs]
      · by_cases hf : decodeFloat32 d ≠ [] <;> simp [hs, hf]
    · rw [parse_rate, parse_rate d a]
      cases hsc : scanRates d
      · simp only [hsc, parse_rate d a]
      · rfl
    · rw [parse_error, parse_error d a]

theorem read_pek_file_idem (fs : String → Option (List Byte)) (a : PEKAnalyzer) :
    read_pek_file fs (read_pek_file fs a).1 = read_pek_file fs a := by
  unfold read_pek_file
  cases hfs : fs a.file_path with
  | some d =>
    simp only [hfs]
    rw [parse_file_path, hfs]
    simp only [parse_idem]
  | none =>
    simp only [hfs]

end PEK

namespace PEK

/-! ### `get_audio_info` projections (C6, C7, C8) -/

theorem get_audio_info_peak_fields (stat : String → Option (String × String))
    (a : PEKAnalyzer) (c : Nat) (hc : a.metadata.peak_count = some c) :
    (get_audio_info stat a).peak_samples = some c ∧
    (get_audio_info stat a).max_amplitude = some (fmt4 (a.metadata.max_peak.getD 0)) ∧
    (get_audio_info stat a).min_amplitude = some (fmt4 (a.metadata.min_peak.getD 0)) ∧
    (get_audio_info stat a).avg_amplitude = some (fmt4 (a.metadata.avg_peak.getD 0)) := by
  unfold get_audio_info
  simp only [hc]
  cases a.metadata.possible_sample_rate <;> cases stat a.file_path <;>
    refine ⟨rfl, rfl, rfl, rfl⟩

theorem get_audio_info_duration_fields (stat : String → Option (String × String))
    (a : PEKAnalyzer) (c r : Nat) (hc : a.metadata.peak_count = some c)
    (hr : a.metadata.possible_sample_rate = some r) :
    (get_audio_info stat a).estimated_duration = some (fmtTimedelta (c / r)) ∧
    (get_audio_info stat a).sample_rate = some (natToStr r ++ " Hz") := by
  unfold get_audio_info
  simp only [hc, hr]
  cases stat a.file_path <;> exact ⟨rfl, rfl⟩

theorem get_audio_info_no_rate (stat : String → Option (String × String))
    (a : PEKAnalyzer) (hr : a.metadata.possible_sample_rate = none) :
    (get_audio_info stat a).estimated_duration = none ∧
    (get_audio_info stat a).sample_rate = none := by
  unfold get_audio_info
  simp only [hr]
  cases a.metadata.peak_count <;> cases stat a.file_path <;> exact ⟨rfl, rfl⟩

theorem get_audio_info_no_peaks (stat : String → Option (String × String))
    (a : PEKAnalyzer) (hc : a.metadata.peak_count = none) :
    (get_audio_info stat a).peak_samples = none ∧
    (get_audio_info stat a).max_amplitude = none ∧
    (get_audio_info stat a).min_amplitude = none ∧
    (get_audio_info stat a).avg_amplitude = none ∧
    (get_audio_info stat a).estimated_duration = none ∧
    (get_audio_info stat a).sample_rate = none := by
  unfold get_audio_info
  simp only [hc]
  cases stat a.file_path <;> exact ⟨rfl, rfl, rfl, rfl, rfl, rfl⟩

/-! ### Export and batch lemmas (C1, C5, C10) -/

theorem export_rows_length (a : PEKAnalyzer) (w : Nat) :
    Option.map (fun e => e.rows.length) (export_waveform_data a w) =
      if a.peaks = [] then none else some (downsampleExport a.peaks w).length := by
  unfold export_waveform_data
  by_cases h : a.peaks = []
  · simp [h]
  · simp [h]

theorem batchResults_cons (fs : String → Option (List Byte))
    (stat : String → Option (String × String)) (p : String) (ps : List String) :
    batchResults fs stat (p :: ps) =
      match analyze_pek_file fs p with
      | some a => get_audio_info stat a :: batchResults fs stat ps
      | none => batchResults fs stat ps := by
  simp only [batchResults, List.filterMap_cons]
  cases analyze_pek_file fs p <;> simp

theorem analyze_pek_file_some (fs : String → Option (List Byte)) (p : String)
    (d : List Byte) (hfs : fs p = some d) :
    analyze_pek_file fs p = some (read_pek_file fs (mkAnalyzer p)).1 := by
  unfold analyze_pek_file read_pek_file
  simp [mkAnalyzer, hfs]

theorem analyze_pek_file_none (fs : String → Option (List Byte)) (p : String)
    (hfs : fs p = none) : analyze_pek_file fs p = none := by
  unfold analyze_pek_file read_pek_file
  simp [mkAnalyzer, hfs]

theorem batchResults_eq (fs : String → Option (List Byte))
    (stat : String → Option (String × String)) (paths : List String) :
    batchResults fs stat paths =
      (paths.filter (fun p => (fs p).isSome)).map
        (fun p => get_audio_info stat (read_pek_file fs (mkAnalyzer p)).1) := by
  induction paths with
  | nil => rfl
  | cons p ps ih =>
    rw [batchResults_cons, List.filter_cons]
    cases hfs : fs p with
    | some d =>
      rw [analyze_pek_file_some fs p d hfs]
      simp [ih]
    | none =>
      rw [analyze_pek_file_none fs p hfs]
      simp [ih]

/-! ### Digit and `H:MM:SS` lemmas (C7) -/

theorem digitChar_isDigit (d : Nat) (h : d < 10) : (digitChar d).isDigit = true := by
  interval_cases d <;> decide

theorem natChars_all_digits (fuel n : Nat) :
    ∀ c ∈ natChars fuel n, c.isDigit = true := by
  induction fuel generalizing n with
  | zero => intro c hc; simp [natChars] at hc
  | succ fuel ih =>
    intro c hc
    by_cases h : n < 10
    · simp only [natChars, if_pos h, List.mem_singleton] at hc
      subst hc
      exact digitChar_isDigit n h
    · simp only [natChars, if_neg h, List.mem_append, List.mem_singleton] at hc
      rcases hc with hc | hc
      · exact ih (n / 10) c hc
      · subst hc
        exact digitChar_isDigit (n % 10) (Nat.mod_lt n (by omega))

theorem natChars_ne_nil (fuel n : Nat) (h : 0 < fuel) : natChars fuel n ≠ [] := by
  match fuel, h with
  | fuel + 1, _ =>
    by_cases hn : n < 10
    · simp [natChars, hn]
    · simp [natChars, hn]

theorem natChars_small (fuel n : Nat) (hf : 0 < fuel) (hn : n < 10) :
    natChars fuel n = [digitChar n] := by
  match fuel, hf with
  | fuel + 1, _ => simp [natChars, hn]

theorem pad2_two_digits (m : Nat) (hm : m < 100) :
    ∃ a b : Char, padLeftZeros 2 (natStrChars m) = [a, b] ∧
      a.isDigit = true ∧ b.isDigit = true := by
  by_cases h : m < 10
  · refine ⟨'0', digitChar m, ?_, by decide, digitChar_isDigit m h⟩
    rw [natStrChars, natChars_small (m + 1) m (by omega) h]
    rfl
  · refine ⟨digitChar (m / 10), digitChar (m % 10), ?_,
      digitChar_isDigit _ (by omega), digitChar_isDigit _ (Nat.mod_lt m (by omega))⟩
    rw [natStrChars]
    show padLeftZeros 2 (natChars (m + 1) m) = _
    rw [show natChars (m + 1) m = natChars m (m / 10) ++ [digitChar (m % 10)] by
      simp [natChars, h]]
    rw [natChars_small m (m / 10) (by omega) (by omega)]
    rfl

theorem takeWhile_append_all {p : Char → Bool} (xs : List Char) (y : Char) (ys : List Char)
    (hall : ∀ c ∈ xs, p c = true) (hy : p y = false) :
    (xs ++ y :: ys).takeWhile p = xs ∧ (xs ++ y :: ys).dropWhile p = y :: ys := by
  induction xs with
  | nil => simp [List.takeWhile, List.dropWhile, hy]
  | cons x xs ih =>
    have hx : p x = true := hall x (by simp)
    have hrest : ∀ c ∈ xs, p c = true := fun c hc => hall c (by simp [hc])
    obtain ⟨h1, h2⟩ := ih hrest
    simp [List.takeWhile, List.dropWhile, hx, h1, h2]

theorem isHMMSS_hms (h m s : Nat) (hm : m < 100) (hs : s < 100) :
    isHMMSSChars (natStrChars h ++ ':' :: padLeftZeros 2 (natStrChars m) ++
      ':' :: padLeftZeros 2 (natStrChars s)) = true := by
  obtain ⟨ma, mb, hmeq, hma, hmb⟩ := pad2_two_digits m hm
  obtain ⟨sa, sb, hseq, hsa, hsb⟩ := pad2_two_digits s hs
  rw [hmeq, hseq]
  have e : natStrChars h ++ ':' :: [ma, mb] ++ ':' :: [sa, sb] =
      natStrChars h ++ ':' :: (ma :: mb :: ':' :: sa :: sb :: []) := by
    simp
  rw [e]
  obtain ⟨ht, hd⟩ := takeWhile_append_all (natStrChars h) ':'
    (ma :: mb :: ':' :: sa :: sb :: []) (natChars_all_digits (h + 1) h) (by decide)
  unfold isHMMSSChars
  rw [ht, hd]
  simp only [Bool.and_eq_true, decide_eq_true_eq]
  refine ⟨natChars_ne_nil (h + 1) h (by omega), ?_⟩
  simp [hma, hmb, hsa, hsb]

theorem fmtTimedelta_isHMMSS (n : Nat) (h : n < 86400) :
    isHMMSS (fmtTimedelta n) = true := by
  unfold fmtTimedelta
  rw [if_pos (by omega : n / 86400 = 0)]
  show isHMMSSChars _ = true
  exact isHMMSS_hms (n % 86400 / 3600) (n % 3600 / 60) (n % 60)
    (by omega) (by omega)

end PEK

namespace PEK

/-! ### Claim theorems -/

/-- Claim C1 (counterexample): a batch with one unreadable path and two
valid paths yields only 2 result records, not 3 — a failed file produces no
record at all, because `analyze_pek_file` returns `None` on failure and the
batch loop appends nothing for it. -/
theorem C1_counterexample :
    (batchResults fs0 stat0 ["bad", "good1", "good2"]).length = 2 ∧
    ¬ (batchResults fs0 stat0 ["bad", "good1", "good2"]).length = 3 := by
  constructor
  · decide
  · decide

/-- Claim C1 (amended): the aggregate report holds exactly one record per
readable path, in order — a failure does not abort the batch (later readable
paths still produce their records) but the failed path is silently dropped
and no record carries an error marker (`get_audio_info` never emits the
`error` metadata field). -/
theorem C1_amended (fs : String → Option (List Byte))
    (stat : String → Option (String × String)) (paths : List String) :
    batchResults fs stat paths =
      (paths.filter (fun p => (fs p).isSome)).map
        (fun p => get_audio_info stat (read_pek_file fs (mkAnalyzer p)).1) ∧
    (batchResults fs stat paths).length = (paths.filter (fun p => (fs p).isSome)).length := by
  refine ⟨batchResults_eq fs stat paths, ?_⟩
  rw [batchResults_eq fs stat paths, List.length_map]

/-- Claim C2 (confirmed): the selector adopts the Int16 result exactly when
it is strictly longer than the Float32 result (ties, including both empty,
leave the Float32 result); on the spec's example buffer the Float32 decoder
yields [1, 0], the Int16 decoder yields 4 values, the Int16 result is
selected, and `peak_samples` is 4. -/
theorem C2_selector :
    (∀ (data : List Byte) (p : String),
      (parseBasicStructure data (mkAnalyzer p)).peaks =
        if (decodeInt16 data).length > (decodeFloat32 data).length then decodeInt16 data
        else decodeFloat32 data) ∧
    decodeFloat32 exBytes = [1, 0] ∧
    (decodeInt16 exBytes).length = 4 ∧
    (parseBasicStructure exBytes (mkAnalyzer "x.pek")).peaks = decodeInt16 exBytes ∧
    (get_audio_info stat0 (read_pek_file fsEx (mkAnalyzer "x.pek")).1).peak_samples = some 4 := by
  refine ⟨fun data p => parse_peaks data p, by decide, by decide, by decide, by decide⟩

/-- Claim C3 (confirmed): the Float32 decoder output is exactly the in-range
filtering of the values of the consecutive complete 4-byte little-endian
windows (so a subsequence in original order, with trailing bytes ignored),
its length is at most `len / 4`, and every kept value lies in [-1, 1]. -/
theorem C3_float32_decoder (data : List Byte) :
    decodeFloat32 data = (float32Windows data).filter (fun q => decide (-1 ≤ q ∧ q ≤ 1)) ∧
    (decodeFloat32 data).length ≤ data.length / 4 ∧
    (decodeFloat32 data).all (fun q => decide (-1 ≤ q ∧ q ≤ 1)) = true :=
  ⟨decodeFloat32_eq_filter data, decodeFloat32_length_le data, decodeFloat32_all_range data⟩

/-- Claim C4 (confirmed): the Int16 decoder output has length exactly
`len / 2`, each consecutive complete 2-byte little-endian signed window value
`v` is kept (never filtered) as `v / 32768`, and every output value lies in
[-1, 1]. -/
theorem C4_int16_decoder (data : List Byte) :
    (decodeInt16 data).length = data.length / 2 ∧
    decodeInt16 data = (chunks2 data).map (fun w => ((int16val w.1 w.2 : ℚ) / 32768)) ∧
    (decodeInt16 data).all (fun q => decide (-1 ≤ q ∧ q ≤ 1)) = true :=
  ⟨decodeInt16_length data, decodeInt16_eq_map data, decodeInt16_all_range data⟩

/-- Claim C5 (counterexample): with 3 samples and width 2 the export
projection keeps all 3 points (stride `max(1, 3 / 2) = 1`, no cap), so the
tabular export emits 3 rows, exceeding the requested width — the export path
is not capped at W. -/
theorem C5_counterexample :
    (downsampleExport cexPeaks 2).length = 3 ∧
    ¬ (downsampleExport cexPeaks 2).length ≤ 2 ∧
    Option.map (fun e => e.rows.length) (export_waveform_data cexAnalyzer 2) = some 3 := by
  refine ⟨by decide, by decide, by decide⟩

/-- Claim C5 (amended): both paths use stride `max(1, N / W)` and keep every
stride-th sample from index 0; the export projection has exactly
`ceil(N / stride)` points (which can exceed W), while the ASCII projection is
additionally truncated to at most W points; the export file's data rows are
in bijection with the export projection. -/
theorem C5_amended (peaks : List ℚ) (w1 : Nat) :
    (downsampleExport peaks (w1 + 1)).length =
      (peaks.length + max 1 (peaks.length / (w1 + 1)) - 1) / max 1 (peaks.length / (w1 + 1)) ∧
    (downsampleAscii peaks (w1 + 1)).length =
      min ((peaks.length + max 1 (peaks.length / (w1 + 1)) - 1) / max 1 (peaks.length / (w1 + 1)))
        (w1 + 1) ∧
    (downsampleAscii peaks (w1 + 1)).length ≤ w1 + 1 ∧
    (∀ j : Nat, (downsampleExport peaks (w1 + 1)).get? j =
      peaks.get? (j * max 1 (peaks.length / (w1 + 1)))) ∧
    (∀ a : PEKAnalyzer, Option.map (fun e => e.rows.length) (export_waveform_data a (w1 + 1)) =
      if a.peaks = [] then none else some ((downsampleExport a.peaks (w1 + 1)).length)) := by
  have hk : 1 ≤ max 1 (peaks.length / (w1 + 1)) := le_max_left _ _
  refine ⟨everyNth_length peaks _ hk, ?_, ?_,
    fun j => everyNth_get? peaks _ hk j, fun a => export_rows_length a _⟩
  · rw [downsampleAscii, List.length_take, everyNth_length peaks _ hk, Nat.min_comm]
  · rw [downsampleAscii, List.length_take]
    exact Nat.min_le_left _ _

/-- Claim C6 (confirmed): the sample-rate scan equals the first window value
(over every byte offset, ascending) that belongs to the allow-list, with
immediate stop; the parsed metadata records exactly that scan result, and the
reported `sample_rate` / `estimated_duration` fields are present exactly when
both a peak count and a scan hit exist — otherwise they are absent. -/
theorem C6_rate_detector (data : List Byte) (p : String)
    (stat : String → Option (String × String)) :
    scanRates data = (windowVals data).find? (fun v => decide (v ∈ commonSampleRates)) ∧
    (parseBasicStructure data (mkAnalyzer p)).metadata.possible_sample_rate = scanRates data ∧
    ((get_audio_info stat (parseBasicStructure data (mkAnalyzer p))).sample_rate,
     (get_audio_info stat (parseBasicStructure data (mkAnalyzer p))).estimated_duration) =
      match (parseBasicStructure data (mkAnalyzer p)).metadata.peak_count, scanRates data with
      | some c, some r => (some (natToStr r ++ " Hz"), some (fmtTimedelta (c / r)))
      | _, _ => (none, none) := by
  have hrate : (parseBasicStructure data (mkAnalyzer p)).metadata.possible_sample_rate =
      scanRates data := by
    rw [parse_rate]
    cases scanRates data <;> rfl
  refine ⟨scanRates_eq_find data, hrate, ?_⟩
  cases hc : (parseBasicStructure data (mkAnalyzer p)).metadata.peak_count with
  | none =>
    obtain ⟨_, _, _, _, h5, h6⟩ := get_audio_info_no_peaks stat _ hc
    cases hsr : scanRates data <;> simp [h5, h6]
  | some c =>
    cases hsr : scanRates data with
    | none =>
      obtain ⟨h5, h6⟩ := get_audio_info_no_rate stat _ (by rw [hrate, hsr])
      simp [h5, h6]
    | some r =>
      obtain ⟨h5, h6⟩ := get_audio_info_duration_fields stat _ c r hc (by rw [hrate, hsr])
      simp [h5, h6]

/-- Claim C7 (counterexample): for a sample count of exactly one day at
44100 Hz (an allow-listed rate), the rendered duration is
`"1 day, 0:00:00"`, which is not an `H:MM:SS` string — Python's `timedelta`
rendering adds a day prefix at and beyond 24 hours. -/
theorem C7_counterexample :
    (get_audio_info stat0 c7big).estimated_duration = some "1 day, 0:00:00" ∧
    isHMMSS "1 day, 0:00:00" = false ∧
    44100 ∈ commonSampleRates := by
  refine ⟨by decide, by decide, by decide⟩

/-- Claim C7 (amended): whenever a sample rate and a peak count are present
and the truncated duration `count / rate` is under 24 hours, the reported
duration is the `timedelta` rendering of that whole-second value, which then
is an `H:MM:SS` string, and the rate is reported with a `" Hz"` suffix. -/
theorem C7_amended (stat : String → Option (String × String)) (a : PEKAnalyzer)
    (c r : Nat) (hc : a.metadata.peak_count = some c)
    (hr : a.metadata.possible_sample_rate = some r) (hlt : c / r < 86400) :
    (get_audio_info stat a).estimated_duration = some (fmtTimedelta (c / r)) ∧
    isHMMSS (fmtTimedelta (c / r)) = true ∧
    (get_audio_info stat a).sample_rate = some (natToStr r ++ " Hz") := by
  obtain ⟨h1, h2⟩ := get_audio_info_duration_fields stat a c r hc hr
  exact ⟨h1, fmtTimedelta_isHMMSS _ hlt, h2⟩

/-- Claim C7 (witness): the amended claim instantiated at a state with
161444100 samples at 44100 Hz (duration 1:01:01). -/
theorem C7_witness :
    c7wit.metadata.peak_count = some 161444100 ∧
    c7wit.metadata.possible_sample_rate = some 44100 ∧
    161444100 / 44100 < 86400 ∧
    ((get_audio_info stat0 c7wit).estimated_duration = some (fmtTimedelta (161444100 / 44100)) ∧
     isHMMSS (fmtTimedelta (161444100 / 44100)) = true ∧
     (get_audio_info stat0 c7wit).sample_rate = some (natToStr 44100 ++ " Hz")) :=
  ⟨rfl, rfl, by decide, C7_amended stat0 c7wit 161444100 44100 rfl rfl (by decide)⟩

/-- Claim C8 (counterexample): on the buffer `00 80` the selected samples are
`[-1]`; the reported `max_amplitude` is `"-1.0000"` (the signed maximum), not
the maximum of the absolute amplitudes, which formats to `"1.0000"`. -/
theorem C8_counterexample :
    (get_audio_info stat0 (parseBasicStructure c8data (mkAnalyzer "c8.pek"))).max_amplitude =
      some "-1.0000" ∧
    fmt4 (pyMax (((parseBasicStructure c8data (mkAnalyzer "c8.pek")).peaks).map
      (fun q => |q|))) = "1.0000" ∧
    (get_audio_info stat0 (parseBasicStructure c8data (mkAnalyzer "c8.pek"))).max_amplitude ≠
      some (fmt4 (pyMax (((parseBasicStructure c8data (mkAnalyzer "c8.pek")).peaks).map
        (fun q => |q|)))) := by
  refine ⟨by decide, by decide, by decide⟩

/-- Claim C8 (amended): for a non-empty selected sample list, the stored
statistics are the signed maximum, the signed minimum, and the average of the
absolute values of the selected samples — computed purely from the sample
list — and the reported amplitude fields are their 4-decimal renderings. -/
theorem C8_amended (data : List Byte) (p : String)
    (stat : String → Option (String × String))
    (hne : (parseBasicStructure data (mkAnalyzer p)).peaks ≠ []) :
    (parseBasicStructure data (mkAnalyzer p)).metadata.peak_count =
      some (parseBasicStructure data (mkAnalyzer p)).peaks.length ∧
    (parseBasicStructure data (mkAnalyzer p)).metadata.max_peak =
      some (pyMax (parseBasicStructure data (mkAnalyzer p)).peaks) ∧
    (parseBasicStructure data (mkAnalyzer p)).metadata.min_peak =
      some (pyMin (parseBasicStructure data (mkAnalyzer p)).peaks) ∧
    (parseBasicStructure data (mkAnalyzer p)).metadata.avg_peak =
      some ((((parseBasicStructure data (mkAnalyzer p)).peaks.map (fun q => |q|)).sum : ℚ) /
        ((parseBasicStructure data (mkAnalyzer p)).peaks.length : ℚ)) ∧
    (get_audio_info stat (parseBasicStructure data (mkAnalyzer p))).max_amplitude =
      some (fmt4 (pyMax (parseBasicStructure data (mkAnalyzer p)).peaks)) ∧
    (get_audio_info stat (parseBasicStructure data (mkAnalyzer p))).min_amplitude =
      some (fmt4 (pyMin (parseBasicStructure data (mkAnalyzer p)).peaks)) ∧
    (get_audio_info stat (parseBasicStructure data (mkAnalyzer p))).avg_amplitude =
      some (fmt4 ((((parseBasicStructure data (mkAnalyzer p)).peaks.map (fun q => |q|)).sum : ℚ) /
        ((parseBasicStructure data (mkAnalyzer p)).peaks.length : ℚ))) := by
  obtain ⟨h1, h2, h3, h4⟩ := parse_statsConsistent data p hne
  obtain ⟨g1, g2, g3, g4⟩ := get_audio_info_peak_fields stat _ _ h1
  have h4' : (parseBasicStructure data (mkAnalyzer p)).metadata.avg_peak =
      some ((((parseBasicStructure data (mkAnalyzer p)).peaks.map (fun q => |q|)).sum : ℚ) /
        ((parseBasicStructure data (mkAnalyzer p)).peaks.length : ℚ)) := by
    rw [h4, avgAbs_eq]
  refine ⟨h1, h2, h3, h4', ?_, ?_, ?_⟩
  · rw [g2, h2, Option.getD_some]
  · rw [g3, h3, Option.getD_some]
  · rw [g4, h4', Option.getD_some]

/-- Claim C8 (witness): the amended claim instantiated on the buffer `00 80`
(selected samples `[-1]`). -/
theorem C8_witness :
    (parseBasicStructure c8data (mkAnalyzer "c8.pek")).peaks ≠ [] ∧
    ((parseBasicStructure c8data (mkAnalyzer "c8.pek")).metadata.peak_count =
      some (parseBasicStructure c8data (mkAnalyzer "c8.pek")).peaks.length ∧
    (parseBasicStructure c8data (mkAnalyzer "c8.pek")).metadata.max_peak =
      some (pyMax (parseBasicStructure c8data (mkAnalyzer "c8.pek")).peaks) ∧
    (parseBasicStructure c8data (mkAnalyzer "c8.pek")).metadata.min_peak =
      some (pyMin (parseBasicStructure c8data (mkAnalyzer "c8.pek")).peaks) ∧
    (parseBasicStructure c8data (mkAnalyzer "c8.pek")).metadata.avg_peak =
      some ((((parseBasicStructure c8data (mkAnalyzer "c8.pek")).peaks.map (fun q => |q|)).sum : ℚ) /
        ((parseBasicStructure c8data (mkAnalyzer "c8.pek")).peaks.length : ℚ)) ∧
    (get_audio_info stat0 (parseBasicStructure c8data (mkAnalyzer "c8.pek"))).max_amplitude =
      some (fmt4 (pyMax (parseBasicStructure c8data (mkAnalyzer "c8.pek")).peaks)) ∧
    (get_audio_info stat0 (parseBasicStructure c8data (mkAnalyzer "c8.pek"))).min_amplitude =
      some (fmt4 (pyMin (parseBasicStructure c8data (mkAnalyzer "c8.pek")).peaks)) ∧
    (get_audio_info stat0 (parseBasicStructure c8data (mkAnalyzer "c8.pek"))).avg_amplitude =
      some (fmt4 ((((parseBasicStructure c8data (mkAnalyzer "c8.pek")).peaks.map (fun q => |q|)).sum : ℚ) /
        ((parseBasicStructure c8data (mkAnalyzer "c8.pek")).peaks.length : ℚ)))) :=
  ⟨by decide, C8_amended c8data "c8.pek" stat0 (by decide)⟩

/-- Claim C9 (confirmed): the decode pipeline is deterministic and
idempotent — re-running `read_pek_file` on the state produced by a first run
(same file system, hence same unmodified file contents) returns the identical
state and flag, hence identical `DecodedSamples` (`peaks`) and a bit-identical
`AudioInfo`; the decoders themselves are Lean functions of the buffer alone,
so equal buffers give equal outputs by definition. -/
theorem C9_determinism (fs : String → Option (List Byte))
    (stat : String → Option (String × String)) (a : PEKAnalyzer) :
    read_pek_file fs (read_pek_file fs a).1 = read_pek_file fs a ∧
    (read_pek_file fs (read_pek_file fs a).1).1.peaks = (read_pek_file fs a).1.peaks ∧
    get_audio_info stat (read_pek_file fs (read_pek_file fs a).1).1 =
      get_audio_info stat (read_pek_file fs a).1 := by
  have h := read_pek_file_idem fs a
  exact ⟨h, by rw [h], by rw [h]⟩

/-- Claim C10 (confirmed): when the selected sample list is empty, the
tabular export returns the failure value (`False` in the source) before any
file is opened, so nothing is created or written — modelled by the `none`
result carrying no output lines. -/
theorem C10_empty_export (a : PEKAnalyzer) (maxPoints : Nat) (h : a.peaks = []) :
    export_waveform_data a maxPoints = none := by
  unfold export_waveform_data
  rw [if_pos h]

/-- Claim C10 (witness): a fresh analyzer has no peaks and its export is the
no-write failure value. -/
theorem C10_witness :
    (mkAnalyzer "w.pek").peaks = [] ∧
    export_waveform_data (mkAnalyzer "w.pek") 1000 = none :=
  ⟨rfl, C10_empty_export (mkAnalyzer "w.pek") 1000 rfl⟩

end PEK
